import Mathlib

/-!
# session-go: the session lifecycle controller

A shallow embedding of `src/session.go` (package `session`): the provider
registry (`Register`, `NewManager`), identifier generation (`sessionId`), the
request operations (`SessionStart`, `SessionDestroy`) and the self re-arming
sweep (`GC`).

Conventions of the embedding.

* The code is embedded sequentially: the manager's mutex is not represented.
* Everything the code touches outside its own variables is explicit state:
  the provider backend, the random source, the list of provider calls made so
  far and the timers armed through `time.AfterFunc` live in `World`; the
  cookies handed to `http.SetCookie` live in `ResponseWriter`.
* The standard-library pieces the code calls (`io.ReadFull`, `Request.Cookie`,
  `http.SetCookie`, `base64.RawURLEncoding`, `time.Duration` arithmetic) are
  embedded from the Go standard library at the level the package uses them.
-/

namespace session

/-! ## Bytes and `encoding/base64` (`RawURLEncoding`) -/

/-- One octet. -/
abbrev Byte := Fin 256

/-- The conversion `byte(n)`: the low eight bits of `n`. -/
def toByte (n : Nat) : Byte := ⟨n % 256, Nat.mod_lt n (by decide)⟩

/-- The URL-safe alphabet of `encoding/base64` (constant `encodeURL`). -/
def encodeURL : List Char :=
  ['A', 'B', 'C', 'D', 'E', 'F', 'G', 'H', 'I', 'J', 'K', 'L', 'M',
   'N', 'O', 'P', 'Q', 'R', 'S', 'T', 'U', 'V', 'W', 'X', 'Y', 'Z',
   'a', 'b', 'c', 'd', 'e', 'f', 'g', 'h', 'i', 'j', 'k', 'l', 'm',
   'n', 'o', 'p', 'q', 'r', 's', 't', 'u', 'v', 'w', 'x', 'y', 'z',
   '0', '1', '2', '3', '4', '5', '6', '7', '8', '9', '-', '_']

/-- The table lookup `enc.encode[i]` for a six-bit index `i`. -/
def encode (i : Nat) : Char := encodeURL.getD i 'A'

/-- The table lookup `enc.decodeMap[c]`: the index of `c` in the alphabet, or
nothing (`0xFF` in the Go table) for a character outside it. -/
def decodeMap (c : Char) : Option Nat :=
  let i := encodeURL.indexOf c
  if i < 64 then some i else none

/-- The loop of `Encoding.Encode` for `RawURLEncoding` (no padding character):
full groups of three bytes give four characters, a tail of two bytes gives
three and a tail of one byte gives two. On octets the shifts and ors of the Go
code are the multiplications, sums, quotients and remainders below
(`a<<16 | b<<8 | c` is `a*65536 + b*256 + c`, `val>>18&0x3F` is
`val / 262144 % 64`, and so on). -/
def Encode : List Byte → List Char
  | a :: b :: c :: rest =>
      let val := a.val * 65536 + b.val * 256 + c.val
      encode (val / 262144 % 64) :: encode (val / 4096 % 64) ::
        encode (val / 64 % 64) :: encode (val % 64) :: Encode rest
  | [a, b] =>
      let val := a.val * 65536 + b.val * 256
      [encode (val / 262144 % 64), encode (val / 4096 % 64), encode (val / 64 % 64)]
  | [a] =>
      let val := a.val * 65536
      [encode (val / 262144 % 64), encode (val / 4096 % 64)]
  | [] => []

/-- The call `base64.RawURLEncoding.EncodeToString(src)`. -/
def EncodeToString (src : List Byte) : String := String.mk (Encode src)

/-- The quantum decoder of `Encoding.DecodeString` for `RawURLEncoding`
(non-strict, no padding) on input already freed of line breaks: four
characters give three bytes, a tail of three gives two bytes, a tail of two
gives one, a tail of one character or any character outside the alphabet is
corrupt input. -/
def decodeQuanta : List Char → Option (List Byte)
  | c0 :: c1 :: c2 :: c3 :: rest =>
      match decodeMap c0, decodeMap c1, decodeMap c2, decodeMap c3, decodeQuanta rest with
      | some v0, some v1, some v2, some v3, some tl =>
          let val := v0 * 262144 + v1 * 4096 + v2 * 64 + v3
          some (toByte (val / 65536) :: toByte (val / 256) :: toByte val :: tl)
      | _, _, _, _, _ => none
  | [c0, c1, c2] =>
      match decodeMap c0, decodeMap c1, decodeMap c2 with
      | some v0, some v1, some v2 =>
          let val := v0 * 262144 + v1 * 4096 + v2 * 64
          some [toByte (val / 65536), toByte (val / 256)]
      | _, _, _ => none
  | [c0, c1] =>
      match decodeMap c0, decodeMap c1 with
      | some v0, some v1 =>
          let val := v0 * 262144 + v1 * 4096
          some [toByte (val / 65536)]
      | _, _ => none
  | [_] => none
  | [] => some []

/-- The call `base64.RawURLEncoding.DecodeString(s)`: carriage returns and line
feeds are skipped, the rest is decoded quantum by quantum. -/
def DecodeString (s : String) : Option (List Byte) :=
  decodeQuanta (s.data.filter fun c => c ≠ Char.ofNat 13 ∧ c ≠ Char.ofNat 10)

/-- The characters the identifier may contain: `A-Z`, `a-z`, `0-9`, `-`, `_`. -/
def urlSafe (c : Char) : Bool :=
  c.isUpper || c.isLower || c.isDigit || c == '-' || c == '_'

/-! ## The interfaces `Session` and `Provider` -/

/-- A value of the interface `Session`. The manager only ever calls
`SessionId()`; the key-value bag behind `Get`, `Set` and `Del` is carried along
as data. A nil `Session` is `none : Option Session`. -/
structure Session where
  SessionId : String
  values : List (String × String) := []
deriving DecidableEq

/-- A Go `error` value: `none` is `nil`, `some msg` is a failure. -/
abbrev Error := Option String

/-- The interface `Provider` over a backend state `σ`. `SessionInit` and
`SessionRead` return the Go pair `(Session, error)`, either component of which
may be nil, together with the backend state after the call. -/
structure Provider (σ : Type) where
  SessionInit : String → σ → (Option Session × Error) × σ
  SessionRead : String → σ → (Option Session × Error) × σ
  SessionDestroy : String → σ → σ
  GC : Int → σ → σ

/-! ## The registry and the manager -/

/-- The package variable `providers`, a `map[string]Provider`: `none` at a key
means the key is absent. -/
abbrev Registry (P : Type) := String → Option P

/-- The initial value `make(map[string]Provider)`. -/
def emptyRegistry {P : Type} : Registry P := fun _ => none

/-- The function `Register`. The interface argument may be nil (`none`). A panic
is `Except.error` with the panic value; the registry after the call is returned
in both cases. -/
def Register {P : Type} (name : String) (provider : Option P) (providers : Registry P) :
    Except String Unit × Registry P :=
  match provider with
  | none => (Except.error "nil provider", providers)
  | some p =>
      if (providers name).isSome then
        (Except.error "dup provider name", providers)
      else
        (Except.ok (), fun k => if k = name then some p else providers k)

/-- The struct `Manager` (the mutex `lock` is not represented). A Go `int` is
taken as a 64-bit integer. -/
structure Manager (P : Type) where
  cookieName : String
  provider : P
  maxLifetime : Int

/-- The function `NewManager`; a panic is `Except.error`. -/
def NewManager {P : Type} (name cookieName : String) (maxLifetime : Int)
    (providers : Registry P) : Except String (Manager P) :=
  match providers name with
  | none => Except.error "provider not exists"
  | some provider =>
      Except.ok { cookieName := cookieName, provider := provider, maxLifetime := maxLifetime }

/-! ## `net/http`: cookies, requests, responses -/

/-- The type `http.SameSite`; `unset` is its zero value. -/
inductive SameSite
  | unset
  | SameSiteDefaultMode
  | SameSiteLaxMode
  | SameSiteStrictMode
  | SameSiteNoneMode
deriving DecidableEq

/-- The fields of `http.Cookie` that the package sets; a field left out of a
composite literal has its zero value. -/
structure Cookie where
  Name : String := ""
  Value : String := ""
  Path : String := ""
  MaxAge : Int := 0
  HttpOnly : Bool := false
  SameSite : SameSite := SameSite.unset
deriving DecidableEq

/-- An inbound request: the cookies parsed from its `Cookie` headers, in
order. -/
structure Request where
  cookies : List Cookie

/-- The method `(*http.Request).Cookie`: the first cookie of that name, or
`none` for `ErrNoCookie`. -/
def Request.Cookie (r : Request) (name : String) : Option Cookie :=
  r.cookies.find? fun c => c.Name == name

/-- The response sink: the cookies handed to `http.SetCookie`, in order. -/
structure ResponseWriter where
  setCookies : List Cookie
deriving DecidableEq

/-- The function `http.SetCookie`. -/
def SetCookie (w : ResponseWriter) (cookie : Cookie) : ResponseWriter :=
  { setCookies := w.setCookies ++ [cookie] }

/-! ## The world outside the manager -/

/-- What the manager does to the outside, in order: reads of the random source
and provider calls. -/
inductive Event
  | ReadFull
  | SessionInit (sid : String)
  | SessionRead (sid : String)
  | SessionDestroy (sid : String)
  | GC (maxLifetime : Int)
deriving DecidableEq

/-- The state outside the manager: the provider backend, the bytes the random
source will still deliver before it fails, the events so far, and the pending
timers (`time.AfterFunc` durations, in nanoseconds, oldest first). -/
structure World (σ : Type) where
  store : σ
  rand : List Byte
  trace : List Event
  timers : List Int

/-- The call `io.ReadFull(rand.Reader, buf)` with `len(buf) = n`: the next `n`
bytes, or a failure when the source cannot supply them. -/
def ReadFull (n : Nat) (rand : List Byte) : Option (List Byte) × List Byte :=
  if n ≤ rand.length then (some (rand.take n), rand.drop n) else (none, [])

/-! ## The manager's operations -/

/-- The method `Manager.sessionId`. -/
def Manager.sessionId {P σ : Type} (_manager : Manager P) (s : World σ) : String × World σ :=
  match ReadFull 32 s.rand with
  | (none, rest) => ("", { s with rand := rest, trace := s.trace ++ [Event.ReadFull] })
  | (some buf, rest) =>
      (EncodeToString buf, { s with rand := rest, trace := s.trace ++ [Event.ReadFull] })

/-- The first branch of `Manager.SessionStart` (lines 73 to 76): a new
identifier, `SessionInit` with its error dropped, and the response cookie. -/
def Manager.startNew {σ : Type} (manager : Manager (Provider σ)) (w : ResponseWriter)
    (s : World σ) : Option Session × ResponseWriter × World σ :=
  let (sid, s1) := manager.sessionId s
  let (res, store) := manager.provider.SessionInit sid s1.store
  let cookie : Cookie :=
    { Name := manager.cookieName, Value := sid, Path := "/", MaxAge := manager.maxLifetime,
      HttpOnly := true, SameSite := SameSite.SameSiteLaxMode }
  (res.1, SetCookie w cookie,
    { s1 with store := store, trace := s1.trace ++ [Event.SessionInit sid] })

/-- The method `Manager.SessionStart`: the returned `Session` (possibly nil), the
response sink and the world after the call. -/
def Manager.SessionStart {σ : Type} (manager : Manager (Provider σ)) (w : ResponseWriter)
    (r : Request) (s : World σ) : Option Session × ResponseWriter × World σ :=
  match r.Cookie manager.cookieName with
  | none => manager.startNew w s
  | some cookie =>
      if cookie.Value = "" then
        manager.startNew w s
      else
        let (res, store) := manager.provider.SessionRead cookie.Value s.store
        (res.1, w, { s with store := store, trace := s.trace ++ [Event.SessionRead cookie.Value] })

/-- The method `Manager.SessionDestroy`. -/
def Manager.SessionDestroy {σ : Type} (manager : Manager (Provider σ)) (w : ResponseWriter)
    (r : Request) (s : World σ) : ResponseWriter × World σ :=
  match r.Cookie manager.cookieName with
  | none => (w, s)
  | some cookie =>
      if cookie.Value = "" then
        (w, s)
      else
        let store := manager.provider.SessionDestroy cookie.Value s.store
        let cookie' : Cookie :=
          { Name := manager.cookieName, Path := "/", MaxAge := -1, HttpOnly := true }
        (SetCookie w cookie',
          { s with store := store, trace := s.trace ++ [Event.SessionDestroy cookie.Value] })

/-- A 64-bit signed multiplication result: `n` wrapped into `[-2^63, 2^63)`. -/
def wrapInt64 (n : Int) : Int := (n + 9223372036854775808) % 18446744073709551616 - 9223372036854775808

/-- The constant `time.Second`, in nanoseconds. -/
def Second : Int := 1000000000

/-- The method `Manager.GC`: one provider sweep, then one new timer whose
duration is `time.Duration(maxLifetime) * time.Second`. -/
def Manager.GC {σ : Type} (manager : Manager (Provider σ)) (s : World σ) : World σ :=
  { s with
    store := manager.provider.GC manager.maxLifetime s.store
    trace := s.trace ++ [Event.GC manager.maxLifetime]
    timers := s.timers ++ [wrapInt64 (manager.maxLifetime * Second)] }

/-! ## The sweep scheduler -/

/-- The scheduler states of the design: nothing pending, or one pending firing
with its delay in nanoseconds. -/
inductive Sched
  | idle
  | armed (delay : Int)
deriving DecidableEq

/-- The scheduler state read off the pending timers; `none` when more than one
timer is pending. -/
def schedOf {σ : Type} (s : World σ) : Option Sched :=
  match s.timers with
  | [] => some Sched.idle
  | [d] => some (Sched.armed d)
  | _ => none

/-- One firing of `Manager.GC`. From idle it is the application's call at
startup; otherwise the oldest pending timer expires, is consumed, and its
callback runs `manager.GC()`. -/
def fire {σ : Type} (manager : Manager (Provider σ)) (s : World σ) : World σ :=
  match s.timers with
  | [] => manager.GC s
  | _ :: rest => manager.GC { s with timers := rest }

/-- The world after `n` firings. -/
def fireN {σ : Type} (manager : Manager (Provider σ)) : Nat → World σ → World σ
  | 0, s => s
  | n + 1, s => fireN manager n (fire manager s)

/-! ## Example providers -/

/-- A map-backed provider keeping the live identifiers: `SessionInit` stores
the identifier, `SessionRead` fails on an unknown one, `SessionDestroy` drops
it, and the sweep keeps everything (no session has aged). -/
def memProvider : Provider (List String) where
  SessionInit := fun sid st => ((some { SessionId := sid }, none), sid :: st)
  SessionRead := fun sid st =>
    if sid ∈ st then ((some { SessionId := sid }, none), st)
    else ((none, some "session not found"), st)
  SessionDestroy := fun sid st => st.filter fun x => x ≠ sid
  GC := fun _ st => st

/-- A map-backed provider with room for `cap` sessions: `SessionInit` fails
with a nil session once the store is full; the rest is as in `memProvider`. -/
def cappedProvider (cap : Nat) : Provider (List String) where
  SessionInit := fun sid st =>
    if st.length < cap then ((some { SessionId := sid }, none), sid :: st)
    else ((none, some "session store full"), st)
  SessionRead := fun sid st =>
    if sid ∈ st then ((some { SessionId := sid }, none), st)
    else ((none, some "session not found"), st)
  SessionDestroy := fun sid st => st.filter fun x => x ≠ sid
  GC := fun _ st => st

/-! ## A scenario: start, then destroy -/

/-- The world after a first `SessionStart` on a cookie-less request followed by
`SessionDestroy` on the request that carries the issued cookie. -/
def afterStartDestroy : World (List String) :=
  (Manager.SessionDestroy (Manager.mk "sid" memProvider 3600) (ResponseWriter.mk [])
    (Request.mk [{ Name := "sid", Value := "AAAAAAAAAAAAAAAAAAAAAAAAAAAAAAAAAAAAAAAAAAA" }])
    (Manager.SessionStart (Manager.mk "sid" memProvider 3600) (ResponseWriter.mk [])
      (Request.mk []) (World.mk [] (List.replicate 64 (0 : Byte)) [] [])).2.2).2

/-! ## Assumptions on providers, and event classes -/

/-- A provider whose `SessionInit(id)`, when it succeeds (nil error), returns a
session with `SessionId() = id`. -/
def InitKeepsId {σ : Type} (p : Provider σ) : Prop :=
  ∀ (id : String) (st : σ), (p.SessionInit id st).1.2 = none →
    ∃ x, (p.SessionInit id st).1.1 = some x ∧ x.SessionId = id

/-- A provider in which `SessionRead(id)` issued right after a successful
`SessionInit(id)` returns the session whose `SessionId()` is `id`. -/
def ReadAfterInit {σ : Type} (p : Provider σ) : Prop :=
  ∀ (id : String) (st : σ), (p.SessionInit id st).1.2 = none →
    ∃ x, (p.SessionRead id (p.SessionInit id st).2).1.1 = some x ∧ x.SessionId = id

/-- Whether an event is one of the provider calls `SessionInit`, `SessionRead`. -/
def Event.isInitOrRead : Event → Bool
  | Event.SessionInit _ => true
  | Event.SessionRead _ => true
  | _ => false

/-! ## Facts about the encoding -/

theorem decodeMap_encode : ∀ i, i < 64 → decodeMap (encode i) = some i := by
  decide

theorem encode_mem : ∀ i, i < 64 → encode i ∈ encodeURL := by
  decide

/-- The embedding of the encoder agrees with the test vectors of RFC 4648 and
uses the URL-safe characters where the standard alphabet has `+` and `/`. -/
theorem EncodeToString_vectors :
    EncodeToString [102, 111, 111, 98, 97, 114] = "Zm9vYmFy" ∧
    EncodeToString [102, 111, 111, 98, 97] = "Zm9vYmE" ∧
    EncodeToString [102, 111, 111, 98] = "Zm9vYg" ∧
    EncodeToString [251, 255] = "-_8" ∧
    DecodeString "Zm9vYmE" = some [102, 111, 111, 98, 97] ∧
    DecodeString "Zm9vY" = none ∧
    DecodeString "Zm9v=" = none := by
  decide

theorem decodeQuanta_Encode (src : List Byte) : decodeQuanta (Encode src) = some src := by
  induction src using Encode.induct with
  | case1 a b c rest ih =>
      have ha := a.isLt
      have hb := b.isLt
      have hc := c.isLt
      simp only [Encode, decodeQuanta]
      rw [decodeMap_encode _ (Nat.mod_lt _ (by decide)), decodeMap_encode _ (Nat.mod_lt _ (by decide)),
        decodeMap_encode _ (Nat.mod_lt _ (by decide)), decodeMap_encode _ (Nat.mod_lt _ (by decide)), ih]
      simp only [Option.some.injEq, List.cons.injEq, and_true]
      refine ⟨?_, ?_, ?_⟩ <;> apply Fin.ext <;> simp only [toByte] <;> omega
  | case2 a b =>
      have ha := a.isLt
      have hb := b.isLt
      simp only [Encode, decodeQuanta]
      rw [decodeMap_encode _ (Nat.mod_lt _ (by decide)), decodeMap_encode _ (Nat.mod_lt _ (by decide)),
        decodeMap_encode _ (Nat.mod_lt _ (by decide))]
      simp only [Option.some.injEq, List.cons.injEq, and_true]
      refine ⟨?_, ?_⟩ <;> apply Fin.ext <;> simp only [toByte] <;> omega
  | case3 a =>
      have ha := a.isLt
      simp only [Encode, decodeQuanta]
      rw [decodeMap_encode _ (Nat.mod_lt _ (by decide)), decodeMap_encode _ (Nat.mod_lt _ (by decide))]
      simp only [Option.some.injEq, List.cons.injEq, and_true]
      apply Fin.ext
      simp only [toByte]
      omega
  | case4 => rfl

theorem encodeURL_urlSafe : ∀ c ∈ encodeURL, urlSafe c = true := by
  decide

theorem encodeURL_no_pad : '=' ∉ encodeURL := by
  decide

theorem encodeURL_no_break :
    ∀ c ∈ encodeURL, decide (c ≠ Char.ofNat 13 ∧ c ≠ Char.ofNat 10) = true := by
  decide

theorem Encode_mem (src : List Byte) : ∀ c ∈ Encode src, c ∈ encodeURL := by
  induction src using Encode.induct with
  | case1 a b c rest ih =>
      intro x hx
      simp only [Encode, List.mem_cons] at hx
      rcases hx with h | h | h | h | h
      · exact h ▸ encode_mem _ (Nat.mod_lt _ (by decide))
      · exact h ▸ encode_mem _ (Nat.mod_lt _ (by decide))
      · exact h ▸ encode_mem _ (Nat.mod_lt _ (by decide))
      · exact h ▸ encode_mem _ (Nat.mod_lt _ (by decide))
      · exact ih x h
  | case2 a b =>
      intro x hx
      simp only [Encode, List.mem_cons, List.not_mem_nil, or_false] at hx
      rcases hx with h | h | h
      · exact h ▸ encode_mem _ (Nat.mod_lt _ (by decide))
      · exact h ▸ encode_mem _ (Nat.mod_lt _ (by decide))
      · exact h ▸ encode_mem _ (Nat.mod_lt _ (by decide))
  | case3 a =>
      intro x hx
      simp only [Encode, List.mem_cons, List.not_mem_nil, or_false] at hx
      rcases hx with h | h
      · exact h ▸ encode_mem _ (Nat.mod_lt _ (by decide))
      · exact h ▸ encode_mem _ (Nat.mod_lt _ (by decide))
  | case4 =>
      intro x hx
      simp [Encode] at hx

theorem Encode_length (src : List Byte) :
    (Encode src).length = src.length / 3 * 4 + (src.length % 3 * 8 + 5) / 6 := by
  induction src using Encode.induct with
  | case1 a b c rest ih =>
      simp only [Encode, List.length_cons, ih]
      omega
  | case2 a b => simp [Encode]
  | case3 a => simp [Encode]
  | case4 => simp [Encode]

theorem DecodeString_EncodeToString (src : List Byte) :
    DecodeString (EncodeToString src) = some src := by
  unfold DecodeString EncodeToString
  have hf : (Encode src).filter (fun c => decide (c ≠ Char.ofNat 13 ∧ c ≠ Char.ofNat 10))
      = Encode src := by
    rw [List.filter_eq_self]
    intro c hc
    exact encodeURL_no_break c (Encode_mem src c hc)
  rw [hf]
  exact decodeQuanta_Encode src

theorem ReadFull_ok (n : Nat) (rand : List Byte) (h : n ≤ rand.length) :
    ReadFull n rand = (some (rand.take n), rand.drop n) := by
  simp [ReadFull, h]

theorem ReadFull_fail (n : Nat) (rand : List Byte) (h : rand.length < n) :
    ReadFull n rand = (none, []) := by
  simp [ReadFull, Nat.not_le.mpr h]

theorem sessionId_ok {P σ : Type} (manager : Manager P) (s : World σ) (h : 32 ≤ s.rand.length) :
    manager.sessionId s = (EncodeToString (s.rand.take 32),
      { s with rand := s.rand.drop 32, trace := s.trace ++ [Event.ReadFull] }) := by
  simp only [Manager.sessionId, ReadFull_ok 32 s.rand h]

theorem sessionId_fail {P σ : Type} (manager : Manager P) (s : World σ) (h : s.rand.length < 32) :
    manager.sessionId s = ("",
      { s with rand := [], trace := s.trace ++ [Event.ReadFull] }) := by
  simp only [Manager.sessionId, ReadFull_fail 32 s.rand h]

/-- C9: whenever the random source supplies the 32 bytes, `sessionId` returns
their unpadded base64url encoding: 43 characters, each from `A-Z`, `a-z`,
`0-9`, `-`, `_`, none of them `=`, decoding back to the same 32 bytes; so two
byte sequences with the same identifier are equal. -/
theorem sessionId_base64url {P σ : Type} (manager : Manager P) (s : World σ)
    (h : 32 ≤ s.rand.length) :
    (manager.sessionId s).1 = EncodeToString (s.rand.take 32) ∧
    (s.rand.take 32).length = 32 ∧
    (manager.sessionId s).1.length = 43 ∧
    (∀ c ∈ (manager.sessionId s).1.data, urlSafe c = true) ∧
    '=' ∉ (manager.sessionId s).1.data ∧
    DecodeString (manager.sessionId s).1 = some (s.rand.take 32) ∧
    (∀ s2 : World σ, 32 ≤ s2.rand.length →
      (manager.sessionId s2).1 = (manager.sessionId s).1 → s2.rand.take 32 = s.rand.take 32) := by
  have hlen : (s.rand.take 32).length = 32 := by
    rw [List.length_take]; omega
  rw [sessionId_ok manager s h]
  refine ⟨rfl, hlen, ?_, ?_, ?_, ?_, ?_⟩
  · show (Encode (s.rand.take 32)).length = 43
    rw [Encode_length, hlen]
  · intro c hc
    exact encodeURL_urlSafe c (Encode_mem _ c hc)
  · intro hc
    exact encodeURL_no_pad (Encode_mem _ _ hc)
  · exact DecodeString_EncodeToString _
  · intro s2 h2 heq
    rw [sessionId_ok manager s2 h2] at heq
    have h3 := congrArg DecodeString heq
    simp only [DecodeString_EncodeToString] at h3
    exact Option.some.inj h3

theorem sessionId_base64url_witness :
    32 ≤ (List.replicate 40 (7 : Byte)).length ∧
    (Manager.sessionId (Manager.mk "sid" () 3600)
      (World.mk () (List.replicate 40 (7 : Byte)) [] [])).1.length = 43 :=
  ⟨by decide, (sessionId_base64url (Manager.mk "sid" () 3600)
      (World.mk () (List.replicate 40 (7 : Byte)) [] []) (by decide)).2.2.1⟩


/-! ## The registry -/

/-- C7: `Register` panics exactly when the provider is nil or the name is
already bound; a panic leaves the registry as it was; a successful call binds
the name to the provider and changes no other binding. -/
theorem Register_spec {P : Type} (name : String) (provider : Option P) (providers : Registry P) :
    ((Register name provider providers).1 ≠ Except.ok () ↔
        (provider = none ∨ (providers name).isSome = true)) ∧
    ((Register name provider providers).1 ≠ Except.ok () →
        (Register name provider providers).2 = providers) ∧
    ((Register name provider providers).1 = Except.ok () →
        (Register name provider providers).2 name = provider ∧
        provider ≠ none ∧
        ∀ k, k ≠ name → (Register name provider providers).2 k = providers k) := by
  cases provider with
  | none => simp [Register]
  | some p =>
      by_cases hdup : (providers name).isSome = true
      · simp [Register, hdup]
      · simp only [Register, hdup]
        refine ⟨by simp, by simp, ?_⟩
        intro _
        refine ⟨by simp, by simp, ?_⟩
        intro k hk
        simp [hk]

/-- C8: `NewManager` panics exactly when no provider is registered under the
name, and then constructs no manager; otherwise it returns the manager holding
the registered provider and the two arguments. -/
theorem NewManager_spec {P : Type} (name cookieName : String) (maxLifetime : Int)
    (providers : Registry P) :
    ((∀ m, NewManager name cookieName maxLifetime providers ≠ Except.ok m) ↔
        providers name = none) ∧
    (∀ m, NewManager name cookieName maxLifetime providers = Except.ok m →
        providers name = some m.provider ∧ m.cookieName = cookieName ∧
        m.maxLifetime = maxLifetime) ∧
    (∀ p, providers name = some p →
        NewManager name cookieName maxLifetime providers =
          Except.ok { cookieName := cookieName, provider := p, maxLifetime := maxLifetime }) := by
  cases h : providers name with
  | none => simp [NewManager, h]
  | some p =>
      simp only [NewManager, h]
      refine ⟨by simp, ?_, by simp⟩
      intro m hm
      cases hm
      simp

/-! ## `SessionStart` and `SessionDestroy`, branch by branch -/

theorem startNew_eq {σ : Type} (manager : Manager (Provider σ)) (w : ResponseWriter)
    (s : World σ) :
    manager.startNew w s =
      ((manager.provider.SessionInit (manager.sessionId s).1 s.store).1.1,
       SetCookie w
        { Name := manager.cookieName, Value := (manager.sessionId s).1, Path := "/",
          MaxAge := manager.maxLifetime, HttpOnly := true,
          SameSite := SameSite.SameSiteLaxMode },
       { store := (manager.provider.SessionInit (manager.sessionId s).1 s.store).2
         rand := (manager.sessionId s).2.rand
         trace := s.trace ++ [Event.ReadFull, Event.SessionInit (manager.sessionId s).1]
         timers := s.timers }) := by
  unfold Manager.startNew Manager.sessionId
  cases ReadFull 32 s.rand with
  | mk buf rest =>
      cases buf <;> simp [List.append_assoc]

theorem SessionStart_of_absent {σ : Type} (manager : Manager (Provider σ)) (w : ResponseWriter)
    (r : Request) (s : World σ)
    (hc : r.Cookie manager.cookieName = none ∨
      ∃ c, r.Cookie manager.cookieName = some c ∧ c.Value = "") :
    manager.SessionStart w r s = manager.startNew w s := by
  unfold Manager.SessionStart
  rcases hc with h | ⟨c, h, hv⟩
  · rw [h]
  · rw [h]
    simp only [hv, if_true]

theorem SessionStart_of_present {σ : Type} (manager : Manager (Provider σ)) (w : ResponseWriter)
    (r : Request) (s : World σ) (c : Cookie)
    (hc : r.Cookie manager.cookieName = some c) (hv : c.Value ≠ "") :
    manager.SessionStart w r s =
      ((manager.provider.SessionRead c.Value s.store).1.1, w,
       { s with
         store := (manager.provider.SessionRead c.Value s.store).2
         trace := s.trace ++ [Event.SessionRead c.Value] }) := by
  unfold Manager.SessionStart
  rw [hc]
  simp only [hv, if_false]

/-- C1: on a request with no cookie under the manager's name, or with an empty
one, `SessionStart` reads the random source once to make an identifier `sid`,
calls `SessionInit sid` once and nothing else on the provider, and hands
exactly one cookie to the response: name `cookieName`, value `sid`, path `/`,
max-age `maxLifetime`, HTTP-only, same-site lax. -/
theorem SessionStart_new_session {σ : Type} (manager : Manager (Provider σ))
    (w : ResponseWriter) (r : Request) (s : World σ)
    (hlife : 0 < manager.maxLifetime)
    (hc : r.Cookie manager.cookieName = none ∨
      ∃ c, r.Cookie manager.cookieName = some c ∧ c.Value = "") :
    (manager.SessionStart w r s).2.2.trace =
      s.trace ++ [Event.ReadFull, Event.SessionInit (manager.sessionId s).1] ∧
    (manager.SessionStart w r s).2.2.store =
      (manager.provider.SessionInit (manager.sessionId s).1 s.store).2 ∧
    (manager.SessionStart w r s).1 =
      (manager.provider.SessionInit (manager.sessionId s).1 s.store).1.1 ∧
    (manager.SessionStart w r s).2.2.timers = s.timers ∧
    (∃ c : Cookie,
      (manager.SessionStart w r s).2.1.setCookies = w.setCookies ++ [c] ∧
      c = { Name := manager.cookieName, Value := (manager.sessionId s).1, Path := "/",
            MaxAge := manager.maxLifetime, HttpOnly := true,
            SameSite := SameSite.SameSiteLaxMode } ∧
      0 < c.MaxAge) := by
  rw [SessionStart_of_absent manager w r s hc, startNew_eq]
  exact ⟨rfl, rfl, rfl, rfl, _, rfl, rfl, hlife⟩

theorem SessionStart_new_session_witness :
    (0 : Int) < 3600 ∧
    (Manager.SessionStart (Manager.mk "sid" memProvider 3600) (ResponseWriter.mk [])
      (Request.mk [{ Name := "lang", Value := "en" }])
      (World.mk [] (List.replicate 32 (255 : Byte)) [] [])).2.2.trace =
      [Event.ReadFull, Event.SessionInit "__________________________________________8"] :=
  ⟨by decide,
   (SessionStart_new_session (Manager.mk "sid" memProvider 3600) (ResponseWriter.mk [])
      (Request.mk [{ Name := "lang", Value := "en" }])
      (World.mk [] (List.replicate 32 (255 : Byte)) [] []) (by decide)
      (Or.inl (by decide))).1.trans (by decide)⟩

/-- C6: `SessionDestroy` by cases on the cookie under the manager's name. When
it is absent or empty, nothing happens: no provider call, no response cookie;
in particular a request that sends back the clearing cookie is a no-op.
Otherwise the provider's `SessionDestroy` is called once with the cookie's
value and exactly one cookie goes to the response: name `cookieName`, empty
value, path `/`, max-age `-1`. -/
theorem SessionDestroy_spec {σ : Type} (manager : Manager (Provider σ))
    (w : ResponseWriter) (r : Request) (s : World σ) :
    ((r.Cookie manager.cookieName = none ∨
        ∃ c, r.Cookie manager.cookieName = some c ∧ c.Value = "") →
      manager.SessionDestroy w r s = (w, s)) ∧
    (∀ c, r.Cookie manager.cookieName = some c → c.Value ≠ "" →
      (manager.SessionDestroy w r s).2.trace = s.trace ++ [Event.SessionDestroy c.Value] ∧
      (manager.SessionDestroy w r s).2.store = manager.provider.SessionDestroy c.Value s.store ∧
      (manager.SessionDestroy w r s).2.rand = s.rand ∧
      (manager.SessionDestroy w r s).2.timers = s.timers ∧
      (∃ cleared : Cookie,
        (manager.SessionDestroy w r s).1.setCookies = w.setCookies ++ [cleared] ∧
        cleared.Name = manager.cookieName ∧ cleared.Value = "" ∧ cleared.Path = "/" ∧
        cleared.MaxAge = -1 ∧ cleared.MaxAge < 0 ∧
        ∀ (w2 : ResponseWriter) (r2 : Request) (s2 : World σ),
          r2.Cookie manager.cookieName = some cleared →
          manager.SessionDestroy w2 r2 s2 = (w2, s2))) := by
  constructor
  · intro hc
    unfold Manager.SessionDestroy
    rcases hc with h | ⟨c, h, hv⟩
    · rw [h]
    · rw [h]
      simp only [hv, if_true]
  · intro c hc hv
    have key : manager.SessionDestroy w r s =
        (SetCookie w { Name := manager.cookieName, Path := "/", MaxAge := -1, HttpOnly := true },
         { s with
           store := manager.provider.SessionDestroy c.Value s.store
           trace := s.trace ++ [Event.SessionDestroy c.Value] }) := by
      unfold Manager.SessionDestroy
      rw [hc]
      simp only [hv, if_false]
    rw [key]
    refine ⟨rfl, rfl, rfl, rfl, _, rfl, rfl, rfl, rfl, rfl, by show (-1 : Int) < 0; decide, ?_⟩
    intro w2 r2 s2 h2
    unfold Manager.SessionDestroy
    rw [h2]
    simp

/-! ## The example providers meet the assumptions -/

theorem memProvider_InitKeepsId : InitKeepsId memProvider := by
  intro id st _
  exact ⟨{ SessionId := id }, rfl, rfl⟩

theorem memProvider_ReadAfterInit : ReadAfterInit memProvider := by
  intro id st _
  refine ⟨{ SessionId := id }, ?_, rfl⟩
  simp [memProvider]

theorem cappedProvider_InitKeepsId (cap : Nat) : InitKeepsId (cappedProvider cap) := by
  intro id st h
  by_cases hlt : st.length < cap
  · refine ⟨{ SessionId := id }, ?_, rfl⟩
    simp [cappedProvider, hlt]
  · simp [cappedProvider, hlt] at h

theorem cappedProvider_ReadAfterInit (cap : Nat) : ReadAfterInit (cappedProvider cap) := by
  intro id st h
  by_cases hlt : st.length < cap
  · refine ⟨{ SessionId := id }, ?_, rfl⟩
    simp [cappedProvider, hlt]
  · simp [cappedProvider, hlt] at h

/-! ## Create or resume -/

/-- C2, as the code has it: with a provider whose successful `SessionInit(id)`
returns a session with that identifier, every `SessionStart` makes at most one
of the calls `SessionInit`, `SessionRead`; and whenever it writes a response
cookie, what it returns is the `Session` value of its `SessionInit` call on the
cookie's value, error dropped: a non-nil session with that identifier when the
call succeeded. -/
theorem SessionStart_create_or_resume {σ : Type} (manager : Manager (Provider σ))
    (w : ResponseWriter) (r : Request) (s : World σ)
    (hP : InitKeepsId manager.provider) :
    (∃ evs, (manager.SessionStart w r s).2.2.trace = s.trace ++ evs ∧
      (evs.filter Event.isInitOrRead).length ≤ 1) ∧
    (∀ c : Cookie, (manager.SessionStart w r s).2.1.setCookies = w.setCookies ++ [c] →
      (manager.SessionStart w r s).1 = (manager.provider.SessionInit c.Value s.store).1.1 ∧
      ((manager.provider.SessionInit c.Value s.store).1.2 = none →
        ∃ x, (manager.SessionStart w r s).1 = some x ∧ x.SessionId = c.Value)) := by
  have hnew : manager.SessionStart w r s = manager.startNew w s →
      (∃ evs, (manager.SessionStart w r s).2.2.trace = s.trace ++ evs ∧
        (evs.filter Event.isInitOrRead).length ≤ 1) ∧
      (∀ c : Cookie, (manager.SessionStart w r s).2.1.setCookies = w.setCookies ++ [c] →
        (manager.SessionStart w r s).1 = (manager.provider.SessionInit c.Value s.store).1.1 ∧
        ((manager.provider.SessionInit c.Value s.store).1.2 = none →
          ∃ x, (manager.SessionStart w r s).1 = some x ∧ x.SessionId = c.Value)) := by
    intro h
    rw [h, startNew_eq]
    refine ⟨⟨_, rfl, by simp [Event.isInitOrRead]⟩, ?_⟩
    intro c hc
    simp only [SetCookie, List.append_cancel_left_eq, List.cons.injEq, and_true] at hc
    subst hc
    exact ⟨rfl, fun herr => hP _ _ herr⟩
  cases hcookie : r.Cookie manager.cookieName with
  | none => exact hnew (SessionStart_of_absent manager w r s (Or.inl hcookie))
  | some c0 =>
      by_cases hv : c0.Value = ""
      · exact hnew (SessionStart_of_absent manager w r s (Or.inr ⟨c0, hcookie, hv⟩))
      · rw [SessionStart_of_present manager w r s c0 hcookie hv]
        refine ⟨⟨_, rfl, by simp [Event.isInitOrRead]⟩, ?_⟩
        intro c hc
        simp at hc

theorem SessionStart_create_or_resume_witness :
    InitKeepsId memProvider ∧
    ∃ evs, (Manager.SessionStart (Manager.mk "sid" memProvider 3600) (ResponseWriter.mk [])
      (Request.mk [{ Name := "sid", Value := "abc" }])
      (World.mk ["abc"] [] [] [])).2.2.trace = [] ++ evs ∧
      (evs.filter Event.isInitOrRead).length ≤ 1 :=
  ⟨memProvider_InitKeepsId,
   (SessionStart_create_or_resume (Manager.mk "sid" memProvider 3600) (ResponseWriter.mk [])
      (Request.mk [{ Name := "sid", Value := "abc" }])
      (World.mk ["abc"] [] [] []) memProvider_InitKeepsId).1⟩

/-- C2 fails as stated: the provider's `SessionInit` keeps identifiers whenever
it succeeds, the store is full so the call fails, and `SessionStart` on a
cookie-less request still writes the cookie while returning a nil session. -/
theorem SessionStart_cookie_with_nil_session :
    InitKeepsId (cappedProvider 1) ∧
    (Manager.SessionStart (Manager.mk "sid" (cappedProvider 1) 3600) (ResponseWriter.mk [])
      (Request.mk [])
      (World.mk ["taken"] (List.replicate 32 (0 : Byte)) [] [])).2.1.setCookies =
      [{ Name := "sid", Value := "AAAAAAAAAAAAAAAAAAAAAAAAAAAAAAAAAAAAAAAAAAA", Path := "/",
         MaxAge := 3600, HttpOnly := true, SameSite := SameSite.SameSiteLaxMode }] ∧
    (Manager.SessionStart (Manager.mk "sid" (cappedProvider 1) 3600) (ResponseWriter.mk [])
      (Request.mk [])
      (World.mk ["taken"] (List.replicate 32 (0 : Byte)) [] [])).1 = none :=
  ⟨cappedProvider_InitKeepsId 1, by decide, by decide⟩

/-! ## A failed read, a failed random source -/

/-- C3, as the code has it: on a request whose cookie has a non-empty value for
which `SessionRead` fails, `SessionStart` does not fall back. It makes the one
`SessionRead` call and nothing else: no read of the random source, no
`SessionInit`, no response cookie; and it returns the `Session` value that
`SessionRead` returned with its error, nil when the provider returns nil. -/
theorem SessionStart_failed_read {σ : Type} (manager : Manager (Provider σ))
    (w : ResponseWriter) (r : Request) (s : World σ) (c : Cookie)
    (hc : r.Cookie manager.cookieName = some c) (hv : c.Value ≠ "")
    (_hfail : (manager.provider.SessionRead c.Value s.store).1.2 ≠ none) :
    (manager.SessionStart w r s).2.2.trace = s.trace ++ [Event.SessionRead c.Value] ∧
    (manager.SessionStart w r s).2.2.rand = s.rand ∧
    (manager.SessionStart w r s).2.2.store = (manager.provider.SessionRead c.Value s.store).2 ∧
    (manager.SessionStart w r s).2.1 = w ∧
    (manager.SessionStart w r s).1 = (manager.provider.SessionRead c.Value s.store).1.1 ∧
    ((manager.provider.SessionRead c.Value s.store).1.1 = none →
      (manager.SessionStart w r s).1 = none) := by
  rw [SessionStart_of_present manager w r s c hc hv]
  exact ⟨rfl, rfl, rfl, rfl, rfl, fun h => h⟩

theorem SessionStart_failed_read_witness :
    Request.Cookie (Request.mk [{ Name := "sid", Value := "gone" }]) "sid" =
      some { Name := "sid", Value := "gone" } ∧
    (Manager.SessionStart (Manager.mk "sid" memProvider 3600) (ResponseWriter.mk [])
      (Request.mk [{ Name := "sid", Value := "gone" }])
      (World.mk [] (List.replicate 32 (0 : Byte)) [] [])).2.2.trace =
      [] ++ [Event.SessionRead "gone"] :=
  ⟨by decide,
   (SessionStart_failed_read (Manager.mk "sid" memProvider 3600) (ResponseWriter.mk [])
      (Request.mk [{ Name := "sid", Value := "gone" }])
      (World.mk [] (List.replicate 32 (0 : Byte)) [] [])
      { Name := "sid", Value := "gone" } (by decide) (by decide) (by decide)).1⟩

/-- C3 fails as stated: start, destroy, then start again with the stale cookie.
The first start issued the identifier and the destroy dropped it; the second
start only calls `SessionRead`, which fails, and returns a nil session with no
response cookie and no new identifier, although the random source still has 32
bytes to give. -/
theorem SessionStart_stale_cookie_no_fallback :
    afterStartDestroy.trace =
      [Event.ReadFull, Event.SessionInit "AAAAAAAAAAAAAAAAAAAAAAAAAAAAAAAAAAAAAAAAAAA",
       Event.SessionDestroy "AAAAAAAAAAAAAAAAAAAAAAAAAAAAAAAAAAAAAAAAAAA"] ∧
    afterStartDestroy.rand.length = 32 ∧
    (memProvider.SessionRead "AAAAAAAAAAAAAAAAAAAAAAAAAAAAAAAAAAAAAAAAAAA"
      afterStartDestroy.store).1.2 = some "session not found" ∧
    Manager.SessionStart (Manager.mk "sid" memProvider 3600) (ResponseWriter.mk [])
      (Request.mk [{ Name := "sid", Value := "AAAAAAAAAAAAAAAAAAAAAAAAAAAAAAAAAAAAAAAAAAA" }])
      afterStartDestroy =
      (none, ResponseWriter.mk [],
       { afterStartDestroy with
         trace := afterStartDestroy.trace ++
           [Event.SessionRead "AAAAAAAAAAAAAAAAAAAAAAAAAAAAAAAAAAAAAAAAAAA"] }) := by
  refine ⟨by decide, by decide, by decide, ?_⟩
  rw [SessionStart_of_present _ _ _ _ { Name := "sid", Value := "AAAAAAAAAAAAAAAAAAAAAAAAAAAAAAAAAAAAAAAAAAA" } (by decide) (by decide)]
  have hs : afterStartDestroy.store = [] := by decide
  simp [hs, memProvider]

/-- C4, as the code has it: whenever the random source fails to supply the 32
bytes, `sessionId` yields the empty identifier and `SessionStart` surfaces no
failure: on a request with no cookie or an empty one it calls `SessionInit`
once with the empty identifier, writes one response cookie whose value is
empty, and returns the `Session` value of that call. -/
theorem SessionStart_random_failure {σ : Type} (manager : Manager (Provider σ))
    (w : ResponseWriter) (r : Request) (s : World σ)
    (hrand : s.rand.length < 32)
    (hc : r.Cookie manager.cookieName = none ∨
      ∃ c, r.Cookie manager.cookieName = some c ∧ c.Value = "") :
    (manager.sessionId s).1 = "" ∧
    (manager.SessionStart w r s).2.2.trace =
      s.trace ++ [Event.ReadFull, Event.SessionInit ""] ∧
    (manager.SessionStart w r s).2.1.setCookies = w.setCookies ++
      [{ Name := manager.cookieName, Value := "", Path := "/",
         MaxAge := manager.maxLifetime, HttpOnly := true,
         SameSite := SameSite.SameSiteLaxMode }] ∧
    (manager.SessionStart w r s).1 = (manager.provider.SessionInit "" s.store).1.1 := by
  have hid : (manager.sessionId s).1 = "" := by rw [sessionId_fail manager s hrand]
  rw [SessionStart_of_absent manager w r s hc, startNew_eq, hid]
  exact ⟨rfl, rfl, rfl, rfl⟩

theorem SessionStart_random_failure_witness :
    (List.replicate 31 (9 : Byte)).length < 32 ∧
    (Manager.SessionStart (Manager.mk "sid" memProvider 3600) (ResponseWriter.mk [])
      (Request.mk []) (World.mk [] (List.replicate 31 (9 : Byte)) [] [])).2.2.trace =
      [] ++ [Event.ReadFull, Event.SessionInit ""] :=
  ⟨by decide,
   (SessionStart_random_failure (Manager.mk "sid" memProvider 3600) (ResponseWriter.mk [])
      (Request.mk []) (World.mk [] (List.replicate 31 (9 : Byte)) [] [])
      (by decide) (Or.inl (by decide))).2.1⟩

/-- C4 fails as stated: with the random source exhausted, `SessionStart` on a
cookie-less request returns normally with a session, having called
`SessionInit` with the empty identifier and written a cookie with an empty
value. -/
theorem SessionStart_empty_identifier_issued :
    Manager.SessionStart (Manager.mk "sid" memProvider 3600) (ResponseWriter.mk [])
      (Request.mk []) (World.mk [] [] [] []) =
      (some { SessionId := "" },
       ResponseWriter.mk [{ Name := "sid", Value := "", Path := "/", MaxAge := 3600,
                            HttpOnly := true, SameSite := SameSite.SameSiteLaxMode }],
       World.mk [""] [] [Event.ReadFull, Event.SessionInit ""] []) := by
  rfl

/-! ## Start twice -/

/-- C5, as the code has it: with a provider in which `SessionRead(id)` right
after a successful `SessionInit(id)` returns the session with that identifier,
if a first `SessionStart` on a cookie-less request issues a cookie whose value
`sid` is not empty and its `SessionInit` call succeeded, then a second
`SessionStart` on a request carrying that cookie returns a session whose
`SessionId()` is `sid`, reads no random bytes, makes only the `SessionRead`
call and writes no response cookie. -/
theorem SessionStart_twice {σ : Type} (manager : Manager (Provider σ))
    (w1 w2 : ResponseWriter) (r1 r2 : Request) (s : World σ) (c2 : Cookie)
    (hP : ReadAfterInit manager.provider)
    (h1 : r1.Cookie manager.cookieName = none)
    (hne : (manager.sessionId s).1 ≠ "")
    (hinit : (manager.provider.SessionInit (manager.sessionId s).1 s.store).1.2 = none)
    (h2 : r2.Cookie manager.cookieName = some c2)
    (hv : c2.Value = (manager.sessionId s).1) :
    (∃ c1 : Cookie, (manager.SessionStart w1 r1 s).2.1.setCookies = w1.setCookies ++ [c1] ∧
      c1.Value = (manager.sessionId s).1) ∧
    (∃ x, (manager.SessionStart w2 r2 (manager.SessionStart w1 r1 s).2.2).1 = some x ∧
      x.SessionId = (manager.sessionId s).1) ∧
    (manager.SessionStart w2 r2 (manager.SessionStart w1 r1 s).2.2).2.1 = w2 ∧
    (manager.SessionStart w2 r2 (manager.SessionStart w1 r1 s).2.2).2.2.trace =
      (manager.SessionStart w1 r1 s).2.2.trace ++ [Event.SessionRead (manager.sessionId s).1] ∧
    (manager.SessionStart w2 r2 (manager.SessionStart w1 r1 s).2.2).2.2.rand =
      (manager.SessionStart w1 r1 s).2.2.rand := by
  have hv2 : c2.Value ≠ "" := by rw [hv]; exact hne
  rw [SessionStart_of_present manager w2 r2 _ c2 h2 hv2]
  rw [SessionStart_of_absent manager w1 r1 s (Or.inl h1), startNew_eq, hv]
  refine ⟨⟨_, rfl, rfl⟩, ?_, rfl, rfl, rfl⟩
  exact hP _ _ hinit

theorem SessionStart_twice_witness :
    ReadAfterInit memProvider ∧
    (Manager.SessionStart (Manager.mk "sid" memProvider 3600) (ResponseWriter.mk [])
      (Request.mk [{ Name := "sid", Value := "AAAAAAAAAAAAAAAAAAAAAAAAAAAAAAAAAAAAAAAAAAA" }])
      (Manager.SessionStart (Manager.mk "sid" memProvider 3600) (ResponseWriter.mk [])
        (Request.mk []) (World.mk [] (List.replicate 32 (0 : Byte)) [] [])).2.2).2.1 =
      ResponseWriter.mk [] :=
  ⟨memProvider_ReadAfterInit,
   (SessionStart_twice (Manager.mk "sid" memProvider 3600) (ResponseWriter.mk [])
      (ResponseWriter.mk []) (Request.mk [])
      (Request.mk [{ Name := "sid", Value := "AAAAAAAAAAAAAAAAAAAAAAAAAAAAAAAAAAAAAAAAAAA" }])
      (World.mk [] (List.replicate 32 (0 : Byte)) [] [])
      { Name := "sid", Value := "AAAAAAAAAAAAAAAAAAAAAAAAAAAAAAAAAAAAAAAAAAA" }
      memProvider_ReadAfterInit (by decide) (by decide) (by decide) (by decide)
      (by decide)).2.2.1⟩

/-- C5 fails as stated, in two ways, each with a provider that reads back what
it has initialised. With the random source exhausted the first start issues a
cookie with the empty value, and the second start on a request carrying it
draws on the random source again and writes another cookie. With the store
full the first start issues a cookie for an identifier that was never stored,
and the second start returns a nil session. -/
theorem SessionStart_twice_not_resumed :
    (ReadAfterInit memProvider ∧
      (Manager.SessionStart (Manager.mk "sid" memProvider 3600) (ResponseWriter.mk [])
        (Request.mk []) (World.mk [] [] [] [])).2.1.setCookies =
        [{ Name := "sid", Value := "", Path := "/", MaxAge := 3600, HttpOnly := true,
           SameSite := SameSite.SameSiteLaxMode }] ∧
      Manager.SessionStart (Manager.mk "sid" memProvider 3600) (ResponseWriter.mk [])
        (Request.mk [{ Name := "sid", Value := "" }])
        (Manager.SessionStart (Manager.mk "sid" memProvider 3600) (ResponseWriter.mk [])
          (Request.mk []) (World.mk [] [] [] [])).2.2 =
        (some { SessionId := "" },
         ResponseWriter.mk [{ Name := "sid", Value := "", Path := "/", MaxAge := 3600,
                              HttpOnly := true, SameSite := SameSite.SameSiteLaxMode }],
         World.mk ["", ""] []
           [Event.ReadFull, Event.SessionInit "", Event.ReadFull, Event.SessionInit ""] [])) ∧
    (ReadAfterInit (cappedProvider 1) ∧
      (Manager.SessionStart (Manager.mk "sid" (cappedProvider 1) 3600) (ResponseWriter.mk [])
        (Request.mk [])
        (World.mk ["taken"] (List.replicate 32 (0 : Byte)) [] [])).2.1.setCookies =
        [{ Name := "sid", Value := "AAAAAAAAAAAAAAAAAAAAAAAAAAAAAAAAAAAAAAAAAAA", Path := "/",
           MaxAge := 3600, HttpOnly := true, SameSite := SameSite.SameSiteLaxMode }] ∧
      (Manager.SessionStart (Manager.mk "sid" (cappedProvider 1) 3600) (ResponseWriter.mk [])
        (Request.mk [{ Name := "sid", Value := "AAAAAAAAAAAAAAAAAAAAAAAAAAAAAAAAAAAAAAAAAAA" }])
        (Manager.SessionStart (Manager.mk "sid" (cappedProvider 1) 3600) (ResponseWriter.mk [])
          (Request.mk [])
          (World.mk ["taken"] (List.replicate 32 (0 : Byte)) [] [])).2.2).1 = none) :=
  ⟨⟨memProvider_ReadAfterInit, by decide, by rfl⟩,
   ⟨cappedProvider_ReadAfterInit 1, by decide, by decide⟩⟩

/-! ## The sweep -/

theorem wrapInt64_of_mem (n : Int) (h1 : -9223372036854775808 ≤ n)
    (h2 : n < 9223372036854775808) : wrapInt64 n = n := by
  unfold wrapInt64
  omega

theorem GC_timers {σ : Type} (manager : Manager (Provider σ)) (s : World σ) :
    (manager.GC s).timers = s.timers ++ [wrapInt64 (manager.maxLifetime * Second)] := rfl

theorem fire_trace {σ : Type} (manager : Manager (Provider σ)) (s : World σ) :
    (fire manager s).trace = s.trace ++ [Event.GC manager.maxLifetime] ∧
    (fire manager s).store = manager.provider.GC manager.maxLifetime s.store ∧
    (fire manager s).rand = s.rand := by
  unfold fire
  cases s.timers <;> exact ⟨rfl, rfl, rfl⟩

theorem fire_armed {σ : Type} (manager : Manager (Provider σ)) (s : World σ)
    (h : schedOf s = some Sched.idle ∨ ∃ d, schedOf s = some (Sched.armed d)) :
    (fire manager s).timers = [wrapInt64 (manager.maxLifetime * Second)] := by
  unfold schedOf at h
  unfold fire
  cases hs : s.timers with
  | nil => simp [Manager.GC, hs]
  | cons d rest =>
      cases rest with
      | nil => simp [Manager.GC]
      | cons e rest2 => simp [hs] at h

theorem fireN_succ {σ : Type} (manager : Manager (Provider σ)) (n : Nat) (s : World σ)
    (h : schedOf s = some Sched.idle ∨ ∃ d, schedOf s = some (Sched.armed d)) :
    (fireN manager (n + 1) s).timers = [wrapInt64 (manager.maxLifetime * Second)] ∧
    (fireN manager (n + 1) s).trace =
      s.trace ++ List.replicate (n + 1) (Event.GC manager.maxLifetime) := by
  induction n generalizing s with
  | zero =>
      exact ⟨fire_armed manager s h, (fire_trace manager s).1⟩
  | succ k ih =>
      have harm : schedOf (fire manager s) = some Sched.idle ∨
          ∃ d, schedOf (fire manager s) = some (Sched.armed d) := by
        right
        exact ⟨wrapInt64 (manager.maxLifetime * Second), by
          simp [schedOf, fire_armed manager s h]⟩
      have := ih (fire manager s) harm
      refine ⟨this.1, ?_⟩
      show (fireN manager (k + 1) (fire manager s)).trace = _
      rw [this.2, (fire_trace manager s).1, List.append_assoc]
      rfl

/-- C10, as the code has it: for a lifetime whose seconds fit a `time.Duration`
(between -9223372036 and 9223372036), every firing of `Manager.GC` calls the
provider's `GC` exactly once with `maxLifetime` and, from idle or from armed,
leaves the scheduler armed with exactly one pending firing whose delay is
`maxLifetime` seconds; hence after any number of firings from idle, at least
one, the scheduler is armed with that delay, never idle, and the provider has
been swept once per firing. -/
theorem GC_rearms {σ : Type} (manager : Manager (Provider σ))
    (hlo : -9223372036 ≤ manager.maxLifetime) (hhi : manager.maxLifetime ≤ 9223372036) :
    (∀ s : World σ,
      (manager.GC s).trace = s.trace ++ [Event.GC manager.maxLifetime] ∧
      (manager.GC s).store = manager.provider.GC manager.maxLifetime s.store ∧
      (manager.GC s).timers = s.timers ++ [manager.maxLifetime * Second]) ∧
    (∀ s : World σ, (schedOf s = some Sched.idle ∨ ∃ d, schedOf s = some (Sched.armed d)) →
      (fire manager s).trace = s.trace ++ [Event.GC manager.maxLifetime] ∧
      schedOf (fire manager s) = some (Sched.armed (manager.maxLifetime * Second))) ∧
    (∀ (s : World σ) (n : Nat), schedOf s = some Sched.idle →
      schedOf (fireN manager (n + 1) s) = some (Sched.armed (manager.maxLifetime * Second)) ∧
      schedOf (fireN manager (n + 1) s) ≠ some Sched.idle ∧
      (fireN manager (n + 1) s).trace =
        s.trace ++ List.replicate (n + 1) (Event.GC manager.maxLifetime)) := by
  have hw : wrapInt64 (manager.maxLifetime * Second) = manager.maxLifetime * Second := by
    apply wrapInt64_of_mem <;> simp only [Second] <;> omega
  refine ⟨?_, ?_, ?_⟩
  · intro s
    exact ⟨rfl, rfl, by rw [GC_timers, hw]⟩
  · intro s h
    refine ⟨(fire_trace manager s).1, ?_⟩
    simp [schedOf, fire_armed manager s h, hw]
  · intro s n h
    have := fireN_succ manager n s (Or.inl h)
    refine ⟨?_, ?_, this.2⟩
    · simp [schedOf, this.1, hw]
    · simp [schedOf, this.1]

theorem GC_rearms_witness :
    (-9223372036 : Int) ≤ 3600 ∧ (3600 : Int) ≤ 9223372036 ∧
    schedOf (fireN (Manager.mk "sid" memProvider 3600) (2 + 1) (World.mk [] [] [] [])) =
      some (Sched.armed (3600 * Second)) :=
  ⟨by decide, by decide,
   ((GC_rearms (Manager.mk "sid" memProvider 3600) (by decide) (by decide)).2.2
      (World.mk [] [] [] []) 2 rfl).1⟩

/-- C10 fails as stated: with `maxLifetime = 9223372037` the product
`time.Duration(maxLifetime) * time.Second` overflows 64 bits, and the firing
arms a timer of -9223372036709551616 ns, which is not 9223372037 seconds. -/
theorem GC_delay_overflow :
    schedOf (fire (Manager.mk "sid" memProvider 9223372037) (World.mk [] [] [] [])) =
      some (Sched.armed (-9223372036709551616)) ∧
    schedOf (fire (Manager.mk "sid" memProvider 9223372037) (World.mk [] [] [] [])) ≠
      some (Sched.armed (9223372037 * Second)) := by
  constructor <;> decide

end session
